import Mathlib

/-!
Shallow embedding of `forkd/core.py`, a pre-forking process supervisor.

The supervisor state (`Forkd`) carries the master status, the target worker
count (`num_workers`), the worker registry (an association list with unique
keys standing for the Python dict; its order models the unspecified dict
traversal order), a model pid allocator for `os.fork`, and a log of the
externally observable side effects (forks, control-byte writes, pipe closes).
Fallible operations (unguarded dict lookups that raise `KeyError`) return
`Except`.
-/

/-- Master process status (`Forkd._status`): `none` initially. -/
inductive MStatus
  | starting
  | running
  | shutdown
  | ended
deriving DecidableEq

/-- Worker record status (`worker['status']`). -/
inductive WStatus
  | running
  | shutdown
deriving DecidableEq

/-- Externally observable side effects of supervisor operations. -/
inductive Event
  | forked (pid : Nat)
  | controlWrite (pid : Nat)
  | closedRead (pid : Nat)
  | closedWrite (pid : Nat)
deriving DecidableEq

/-- `SIGNAL_IDS`: signals trapped and their single-byte identifier when sent
through the pipe. -/
def SIGNAL_IDS : List (String × String) :=
  [("SIGCHLD", "C"), ("SIGHUP", "H"), ("SIGINT", "I"), ("SIGQUIT", "Q"),
   ("SIGUSR1", "1"), ("SIGUSR2", "2"), ("SIGTERM", "T")]

/-- `SIGNAL_IDS_REV`: identifier back to signal name. -/
def SIGNAL_IDS_REV : List (String × String) :=
  SIGNAL_IDS.map (fun p => (p.2, p.1))

/-- `WORKER_QUIT`: the single control byte meaning quit. -/
def WORKER_QUIT : String := "Q"

/-- Association-list lookup, modelling Python dict indexing. -/
def alookup {α β : Type} [DecidableEq α] (k : α) : List (α × β) → Option β
  | [] => none
  | (a, b) :: rest => if a = k then some b else alookup k rest

/-- `dict.pop`: remove the entry for a key, returning its value and the rest. -/
def apop {α β : Type} [DecidableEq α] (k : α) :
    List (α × β) → Option (β × List (α × β))
  | [] => none
  | (a, b) :: rest =>
    if a = k then some (b, rest)
    else (apop k rest).map (fun r => (r.1, (a, b) :: r.2))

/-- Supervisor state (`Forkd.__init__` fields plus the event log and the model
pid allocator). -/
structure Forkd where
  status : Option MStatus
  num_workers : Int
  workers : List (Nat × WStatus)
  nextPid : Nat
  events : List Event
  signalPipe : Bool
  handlers : List String
deriving DecidableEq

deriving instance DecidableEq for Except

/-- `Forkd.__init__(worker_func, num_workers)`. -/
def Forkd.init (num_workers : Int) : Forkd :=
  { status := none, num_workers := num_workers, workers := [], nextPid := 1,
    events := [], signalPipe := false, handlers := [] }

/-- `worker['status'] = 'shutdown'` for the record with the given pid. -/
def setShutdown (pid : Nat) : List (Nat × WStatus) → List (Nat × WStatus)
  | [] => []
  | (a, c) :: rest =>
    if a = pid then (pid, WStatus.shutdown) :: setShutdown pid rest
    else (a, c) :: setShutdown pid rest

/-- `Forkd._shutdown_worker`: unguarded registry lookup (`KeyError` when the
pid is absent, modelled as `Except.error`); no-op unless the record is
running; otherwise mark it shutdown and write the quit byte to its control
pipe. -/
def Forkd._shutdown_worker (s : Forkd) (pid : Nat) : Except Unit Forkd :=
  match alookup pid s.workers with
  | none => Except.error ()
  | some st =>
    if st = WStatus.running then
      Except.ok { s with workers := setShutdown pid s.workers,
                         events := s.events ++ [Event.controlWrite pid] }
    else Except.ok s

/-- Total wrapper for `_shutdown_worker` used where the pid is taken from the
registry itself, so the `KeyError` branch is unreachable. -/
def Forkd.shutdownWorkerD (s : Forkd) (pid : Nat) : Forkd :=
  match s._shutdown_worker pid with
  | Except.ok t => t
  | Except.error _ => s

/-- `Forkd._shutdown_workers`: `for pid in self._workers: _shutdown_worker(pid)`. -/
def Forkd._shutdown_workers (s : Forkd) : Forkd :=
  (s.workers.map Prod.fst).foldl Forkd.shutdownWorkerD s

/-- `Forkd._shutdown`: ignored if already shutting down; else set status
shutdown, set `num_workers` to 0 to avoid spawning any more children, and
shut down all workers. -/
def Forkd._shutdown (s : Forkd) : Forkd :=
  if s.status = some MStatus.shutdown then s
  else Forkd._shutdown_workers
    { s with status := some MStatus.shutdown, num_workers := 0 }

/-- One fork (`Forkd._spawn_worker`, parent side): fresh pid, fresh control
pipe, record registered with status running. -/
def Forkd.spawnOne (s : Forkd) : Forkd :=
  { s with workers := s.workers ++ [(s.nextPid, WStatus.running)],
           events := s.events ++ [Event.forked s.nextPid],
           nextPid := s.nextPid + 1 }

/-- `for i in range(k)` around `_spawn_worker`. -/
def Forkd.spawnN : Nat → Forkd → Forkd
  | 0, s => s
  | Nat.succ k, s => Forkd.spawnN k s.spawnOne

/-- `Forkd._spawn_workers`: spawn `max(num_workers - len(workers), 0)`
worker processes. -/
def Forkd._spawn_workers (s : Forkd) : Forkd :=
  Forkd.spawnN (s.num_workers - (s.workers.length : Int)).toNat s

/-- `Forkd._respawn_workers`: ask every running worker to shut down (the
reap/spawn-to-target cycle then effectively restarts them). -/
def Forkd._respawn_workers (s : Forkd) : Forkd :=
  s.workers.foldl
    (fun t q =>
      if alookup q.1 t.workers = some WStatus.running then t.shutdownWorkerD q.1 else t)
    s

/-- `Forkd._add_worker`: increment `num_workers`, then spawn to target. -/
def Forkd._add_worker (s : Forkd) : Forkd :=
  Forkd._spawn_workers { s with num_workers := s.num_workers + 1 }

/-- `Forkd._remove_worker`: no-op when `num_workers <= 1`; else decrement the
target and shut down the first running worker found in traversal order. -/
def Forkd._remove_worker (s : Forkd) : Forkd :=
  if s.num_workers ≤ 1 then s
  else
    let t : Forkd := { s with num_workers := s.num_workers - 1 }
    match t.workers.find? (fun q => q.2 == WStatus.running) with
    | some q => t.shutdownWorkerD q.1
    | none => t

/-- Reap loop of `Forkd._SIGCHLD`: `reaps` models the successive results of
`os.waitpid(-1, os.WNOHANG)`; a pid of 0 (or the end of the list) means no
child is immediately reapable. Each reaped pid is popped from the registry
(`KeyError` if absent) and both of its pipe ends are closed. -/
def reapLoop : Forkd → List (Nat × Nat) → Except Unit Forkd
  | s, [] => Except.ok s
  | s, (pid, _stat) :: rest =>
    if s.workers.isEmpty then Except.ok s
    else if pid = 0 then Except.ok s
    else
      match apop pid s.workers with
      | none => Except.error ()
      | some r =>
        reapLoop
          { s with workers := r.2,
                   events := s.events ++ [Event.closedRead pid, Event.closedWrite pid] }
          rest

/-- `Forkd._SIGCHLD`: reap all immediately reapable children, then spawn back
to target (unconditionally). -/
def Forkd._SIGCHLD (s : Forkd) (reaps : List (Nat × Nat)) : Except Unit Forkd :=
  (reapLoop s reaps).map Forkd._spawn_workers

/-- `Forkd._SIGHUP`. -/
def Forkd._SIGHUP (selfPid : Nat) (s : Forkd) (from_pid : Nat) : Except Unit Forkd :=
  if from_pid = selfPid then Except.ok s._respawn_workers
  else s._shutdown_worker from_pid

/-- `Forkd._SIGINT`. -/
def Forkd._SIGINT (selfPid : Nat) (s : Forkd) (from_pid : Nat) : Except Unit Forkd :=
  if from_pid = selfPid then Except.ok s._shutdown
  else s._shutdown_worker from_pid

/-- `Forkd._SIGQUIT`. -/
def Forkd._SIGQUIT (selfPid : Nat) (s : Forkd) (from_pid : Nat) : Except Unit Forkd :=
  if from_pid = selfPid then Except.ok s._shutdown
  else s._shutdown_worker from_pid

/-- `Forkd._SIGTERM`. -/
def Forkd._SIGTERM (selfPid : Nat) (s : Forkd) (from_pid : Nat) : Except Unit Forkd :=
  if from_pid = selfPid then Except.ok s._shutdown
  else s._shutdown_worker from_pid

/-- `Forkd._SIGUSR1`: add-worker request, only honoured from self. -/
def Forkd._SIGUSR1 (selfPid : Nat) (s : Forkd) (from_pid : Nat) : Except Unit Forkd :=
  if from_pid = selfPid then Except.ok s._add_worker else Except.ok s

/-- `Forkd._SIGUSR2`: remove-worker request, only honoured from self. -/
def Forkd._SIGUSR2 (selfPid : Nat) (s : Forkd) (from_pid : Nat) : Except Unit Forkd :=
  if from_pid = selfPid then Except.ok s._remove_worker else Except.ok s

/-- `getattr(self, '_' + SIGNAL_IDS_REV[signal_id])` dispatch. The `reaps`
argument is consumed only by the SIGCHLD handler. -/
def Forkd.dispatch (selfPid : Nat) (s : Forkd) (name : String) (from_pid : Nat)
    (reaps : List (Nat × Nat)) : Except Unit Forkd :=
  if name = "SIGCHLD" then s._SIGCHLD reaps
  else if name = "SIGHUP" then Forkd._SIGHUP selfPid s from_pid
  else if name = "SIGINT" then Forkd._SIGINT selfPid s from_pid
  else if name = "SIGQUIT" then Forkd._SIGQUIT selfPid s from_pid
  else if name = "SIGTERM" then Forkd._SIGTERM selfPid s from_pid
  else if name = "SIGUSR1" then Forkd._SIGUSR1 selfPid s from_pid
  else if name = "SIGUSR2" then Forkd._SIGUSR2 selfPid s from_pid
  else Except.error ()

/-- `errno.EINTR`. -/
def EINTR : Nat := 4

/-- How the control loop can terminate abnormally: a fatal `IOError` with the
given errno, or any other exception (logged as unexpected and re-raised). -/
inductive LoopErr
  | ioFatal (e : Nat)
  | unexpected
deriving DecidableEq

/-- One observed item at the signal-pipe read end: a parsed line, end of
stream, or an `IOError` (with its errno) raised inside the loop body, whether
by the readline or during dispatch. -/
inductive LoopInput
  | line (sid : String) (from_pid : Nat) (reaps : List (Nat × Nat))
  | eof
  | ioErr (e : Nat)
deriving DecidableEq

/-- `Forkd._loop`: while the registry is nonempty, read one line and dispatch
it. An `IOError` with errno EINTR is swallowed and the loop retries; any
other `IOError` is re-raised; any other exception (such as the `KeyError`
from an unknown signal id or from an unguarded registry lookup inside a
handler) is logged and re-raised. An exhausted input list means no further
observed traffic. -/
def Forkd._loop (selfPid : Nat) : Forkd → List LoopInput → Except LoopErr Forkd
  | s, [] => Except.ok s
  | s, i :: rest =>
    if s.workers.isEmpty then Except.ok s
    else
      match i with
      | LoopInput.eof => Except.ok s
      | LoopInput.ioErr e =>
        if e = EINTR then Forkd._loop selfPid s rest
        else Except.error (LoopErr.ioFatal e)
      | LoopInput.line sid from_pid reaps =>
        match alookup sid SIGNAL_IDS_REV with
        | none => Except.error LoopErr.unexpected
        | some name =>
          match Forkd.dispatch selfPid s name from_pid reaps with
          | Except.error _ => Except.error LoopErr.unexpected
          | Except.ok t => Forkd._loop selfPid t rest

/-- `Forkd._setup`: create the signal pipe and install every relay handler. -/
def Forkd._setup (s : Forkd) : Forkd :=
  { s with signalPipe := true, handlers := SIGNAL_IDS.map Prod.fst }

/-- The supervisor state at the moment `run()` calls `_spawn_workers()`:
after `self._status = 'starting'` and `self._setup()`. -/
def Forkd.preSpawn (s : Forkd) : Forkd :=
  Forkd._setup { s with status := some MStatus.starting }

/-- The supervisor state at loop entry in `run()`: workers spawned, then
`self._status = 'running'`. -/
def Forkd.preLoop (s : Forkd) : Forkd :=
  { Forkd._spawn_workers s.preSpawn with status := some MStatus.running }

/-- `Forkd.run`: starting, setup, spawn workers, running, loop, ended. -/
def Forkd.run (selfPid : Nat) (s : Forkd) (inputs : List LoopInput) :
    Except LoopErr Forkd :=
  (Forkd._loop selfPid s.preLoop inputs).map
    (fun t => { t with status := some MStatus.ended })

/-- The line a relay handler writes: `'%s %s\n' % (signal_id, os.getpid())`. -/
def signalLine (signal_id : String) (pid : Nat) : String :=
  signal_id ++ " " ++ Nat.repr pid ++ "\n"

/-- The installed handler body (`Forkd._signal`): one write of one line to the
signal-pipe write end; the supervisor state is untouched. -/
def signalHandler (signal_id : String) (pid : Nat) (s : Forkd) (chan : List String) :
    Forkd × List String :=
  (s, chan ++ [signalLine signal_id pid])

/-- Outcome of one `worker.next()` advance inside the worker runtime loop. -/
inductive StepResult
  | yielded
  | exhausted
  | failed
deriving DecidableEq

/-- Which stop path the worker runtime loop took. -/
inductive StopKind
  | graceful
  | natural
  | abnormal
deriving DecidableEq

/-- Worker runtime loop (child side of `Forkd._spawn_worker`). Each iteration
is a non-blocking control-pipe read (`none` models EAGAIN, `some b` the bytes
read) followed, unless the quit byte arrived, by one `worker.next()` advance.
Returns the exit status passed to `sys.exit`, the number of units of work
performed, and the stop path taken; `none` when the trace ends before the
loop stops. -/
def workerLoop : List (Option String × StepResult) → Option (Int × Nat × StopKind)
  | [] => none
  | (ch, step) :: rest =>
    if ch = some WORKER_QUIT then some (0, 0, StopKind.graceful)
    else
      match step with
      | StepResult.yielded => (workerLoop rest).map (fun r => (r.1, r.2.1 + 1, r.2.2))
      | StepResult.exhausted => some (0, 0, StopKind.natural)
      | StepResult.failed => some (-1, 0, StopKind.abnormal)

/-- Supervisor operations as delivered through the control loop, as triples
(signal name, origin pid, waitpid results). An exception crashes the loop, so
no further messages are processed after an error. -/
def Forkd.applyMsgs (selfPid : Nat) :
    Forkd → List (String × Nat × List (Nat × Nat)) → Forkd
  | s, [] => s
  | s, m :: rest =>
    match Forkd.dispatch selfPid s m.1 m.2.1 m.2.2 with
    | Except.ok t => Forkd.applyMsgs selfPid t rest
    | Except.error _ => s

/-- Number of quit-byte writes to the control pipe of `pid` in the event log. -/
def writeCount (evts : List Event) (pid : Nat) : Nat :=
  evts.count (Event.controlWrite pid)

/-- A reachable supervisor state with `num_workers = 2` and no running worker:
two workers spawned by `run()`, each then marked shutdown by a HUP relayed
from the worker itself. -/
def noRunningState : Forkd :=
  Forkd.applyMsgs 0 (Forkd.preLoop (Forkd.init 2)) [("SIGHUP", 1, []), ("SIGHUP", 2, [])]

/-- A reachable supervisor state that is shutting down yet has a positive
target count: shutdown via a self-directed SIGTERM, then an add-worker
request. -/
def shutdownPosTarget : Forkd :=
  Forkd.applyMsgs 0 (Forkd.preLoop (Forkd.init 1)) [("SIGTERM", 0, []), ("SIGUSR1", 0, [])]

/-- Registry/event-log invariant maintained by every supervisor operation:
registry keys are unique and below the pid allocator, each worker's quit byte
is written at most once, never to a still-running worker, and never to a pid
not yet allocated. -/
structure RegInv (s : Forkd) : Prop where
  nodup : (s.workers.map Prod.fst).Nodup
  keysLt : ∀ q ∈ s.workers, q.1 < s.nextPid
  wcLe : ∀ p, writeCount s.events p ≤ 1
  runZero : ∀ p, alookup p s.workers = some WStatus.running → writeCount s.events p = 0
  freshZero : ∀ p, s.nextPid ≤ p → writeCount s.events p = 0

theorem alookup_mem {α β : Type} [DecidableEq α] {k : α} {l : List (α × β)} {b : β}
    (h : alookup k l = some b) : (k, b) ∈ l := by
  induction l with
  | nil => simp [alookup] at h
  | cons hd tl ih =>
    obtain ⟨a, c⟩ := hd
    rw [alookup] at h
    by_cases hk : a = k
    · rw [if_pos hk] at h
      injection h with h
      subst hk
      subst h
      exact List.mem_cons_self _ _
    · rw [if_neg hk] at h
      exact List.mem_cons_of_mem _ (ih h)

theorem alookup_eq_none {α β : Type} [DecidableEq α] {k : α} {l : List (α × β)}
    (h : k ∉ l.map Prod.fst) : alookup k l = none := by
  induction l with
  | nil => rfl
  | cons hd tl ih =>
    obtain ⟨a, c⟩ := hd
    simp only [List.map_cons, List.mem_cons] at h
    push_neg at h
    rw [alookup, if_neg (fun he => h.1 he.symm), ih h.2]

theorem alookup_of_mem {α β : Type} [DecidableEq α] {l : List (α × β)}
    (nd : (l.map Prod.fst).Nodup) {x : α × β} (h : x ∈ l) : alookup x.1 l = some x.2 := by
  induction l with
  | nil => simp at h
  | cons hd tl ih =>
    simp only [List.map_cons, List.nodup_cons] at nd
    rcases List.mem_cons.mp h with rfl | hmem
    · rw [alookup, if_pos rfl]
    · have hne : hd.1 ≠ x.1 := by
        intro he
        exact nd.1 (he ▸ List.mem_map_of_mem Prod.fst hmem)
      rw [alookup, if_neg hne]
      exact ih nd.2 hmem

theorem alookup_mem_keys {α β : Type} [DecidableEq α] {k : α} {l : List (α × β)} {b : β}
    (h : alookup k l = some b) : k ∈ l.map Prod.fst :=
  List.mem_map_of_mem Prod.fst (alookup_mem h)

theorem spawn_workers_of_le {s : Forkd} (h : s.num_workers ≤ (s.workers.length : Int)) :
    Forkd._spawn_workers s = s := by
  unfold Forkd._spawn_workers
  rw [Int.toNat_eq_zero.mpr (by omega)]
  rfl

theorem loop_empty (selfPid : Nat) {s : Forkd} (h : s.workers = []) :
    ∀ inputs, Forkd._loop selfPid s inputs = Except.ok s := by
  intro inputs
  cases inputs with
  | nil => rfl
  | cons i rest => simp [Forkd._loop, h]

/-- C2 (amended): `run()` actually performs: set status starting, one-time
setup (signal channel plus all relay handlers), spawn workers to target, set
status running, loop, and set status ended on loop exit. In particular the
status is still `starting`, not yet `running`, at the moment the initial
workers are spawned. -/
theorem C2_run_order (selfPid : Nat) (s : Forkd) (inputs : List LoopInput) :
    s.preSpawn.status = some MStatus.starting ∧
    s.preSpawn.signalPipe = true ∧
    s.preSpawn.handlers = SIGNAL_IDS.map Prod.fst ∧
    s.preLoop.status = some MStatus.running ∧
    (∀ t, Forkd.run selfPid s inputs = Except.ok t → t.status = some MStatus.ended) := by
  refine ⟨rfl, rfl, rfl, rfl, ?_⟩
  intro t h
  unfold Forkd.run at h
  cases hl : Forkd._loop selfPid s.preLoop inputs with
  | error e => rw [hl] at h; simp [Except.map] at h
  | ok u =>
    rw [hl] at h
    simp only [Except.map] at h
    injection h with h
    rw [← h]

/-- Witness for C2_run_order at a concrete supervisor and input stream. -/
theorem C2_run_order_witness :
    ({ Forkd.preLoop (Forkd.init 1) with status := some MStatus.ended } : Forkd).status =
      some MStatus.ended :=
  (C2_run_order 0 (Forkd.init 1) []).2.2.2.2 _ rfl

/-- C2 is stated with spawning after the transition to `running`; on the code
the supervisor status at the `_spawn_workers()` call inside `run()` is
`starting`, not `running`. -/
theorem C2_counterexample :
    (Forkd.preSpawn (Forkd.init 1)).status = some MStatus.starting ∧
    (Forkd.preSpawn (Forkd.init 1)).status ≠ some MStatus.running := by
  exact ⟨rfl, by decide⟩

/-- C5: the worker runtime loop exits with status 0 exactly on the graceful
path (quit byte read) or the natural path (work sequence exhausted), and with
a non-zero status exactly on the abnormal path (the advance raised), in which
case it stops immediately without retrying; a worker whose sequence yields
exactly 3 units and never receives the quit byte exits 0 after exactly 3
advancement steps. -/
theorem C5_worker_exit :
    (∀ (trace : List (Option String × StepResult)) (c : Int) (n : Nat) (k : StopKind),
        workerLoop trace = some (c, n, k) →
        ((c = 0 ↔ (k = StopKind.graceful ∨ k = StopKind.natural)) ∧
         (c ≠ 0 ↔ k = StopKind.abnormal))) ∧
    (∀ (ch : Option String) (rest : List (Option String × StepResult)),
        ch ≠ some WORKER_QUIT →
        workerLoop ((ch, StepResult.failed) :: rest) = some (-1, 0, StopKind.abnormal)) ∧
    workerLoop [(none, StepResult.yielded), (none, StepResult.yielded),
                (none, StepResult.yielded), (none, StepResult.exhausted)] =
      some (0, 3, StopKind.natural) := by
  refine ⟨?_, ?_, by decide⟩
  · intro trace
    induction trace with
    | nil => intro c n k h; simp [workerLoop] at h
    | cons hd rest ih =>
      intro c n k h
      obtain ⟨ch, step⟩ := hd
      simp only [workerLoop] at h
      by_cases hq : ch = some WORKER_QUIT
      · rw [if_pos hq] at h
        injection h with h
        injection h with hc h
        injection h with hn hk
        subst hc
        subst hk
        refine ⟨by simp, by simp⟩
      · rw [if_neg hq] at h
        cases step with
        | yielded =>
          simp only at h
          cases hr : workerLoop rest with
          | none => rw [hr] at h; simp [Option.map] at h
          | some r =>
            obtain ⟨c0, n0, k0⟩ := r
            rw [hr] at h
            simp only [Option.map] at h
            injection h with h
            injection h with hc h
            injection h with hn hk
            subst hc
            subst hk
            exact ih c0 n0 k0 hr
        | exhausted =>
          simp only at h
          injection h with h
          injection h with hc h
          injection h with hn hk
          subst hc
          subst hk
          refine ⟨by simp, by simp⟩
        | failed =>
          simp only at h
          injection h with h
          injection h with hc h
          injection h with hn hk
          subst hc
          subst hk
          exact ⟨by decide, by decide⟩
  · intro ch rest h
    simp only [workerLoop]
    rw [if_neg h]

/-- Witness for C5_worker_exit: the exit-status equivalences at a concrete
trace, and the no-retry behaviour of a failing advance at a concrete trace. -/
theorem C5_worker_exit_witness :
    (((0 : Int) = 0 ↔ (StopKind.natural = StopKind.graceful ∨
        StopKind.natural = StopKind.natural)) ∧
     ((0 : Int) ≠ 0 ↔ StopKind.natural = StopKind.abnormal)) ∧
    workerLoop [(none, StepResult.failed)] = some (-1, 0, StopKind.abnormal) :=
  ⟨C5_worker_exit.1 [(none, StepResult.yielded), (none, StepResult.yielded),
      (none, StepResult.yielded), (none, StepResult.exhausted)] 0 3 StopKind.natural
      (by decide),
   C5_worker_exit.2.1 none [] (by decide)⟩

/-- C10: constructed with `num_workers <= 0`, `run()` spawns no workers, the
registry stays empty, the loop body never runs (the result is independent of
anything on the signal channel), and `run()` returns with status ended. -/
theorem C10_nonpositive_count (n : Int) (hn : n ≤ 0) (selfPid : Nat)
    (inputs : List LoopInput) :
    (Forkd.preLoop (Forkd.init n)).workers = [] ∧
    (Forkd.preLoop (Forkd.init n)).events = [] ∧
    Forkd.run selfPid (Forkd.init n) inputs =
      Except.ok { Forkd.preLoop (Forkd.init n) with status := some MStatus.ended } ∧
    Forkd.run selfPid (Forkd.init n) inputs = Forkd.run selfPid (Forkd.init n) [] := by
  have hsp : Forkd._spawn_workers (Forkd.preSpawn (Forkd.init n)) =
      Forkd.preSpawn (Forkd.init n) := by
    apply spawn_workers_of_le
    show n ≤ (([] : List (Nat × WStatus)).length : Int)
    simpa using hn
  have hw : (Forkd.preLoop (Forkd.init n)).workers = [] := by
    unfold Forkd.preLoop
    rw [hsp]
    rfl
  have hloop : ∀ ins, Forkd._loop selfPid (Forkd.preLoop (Forkd.init n)) ins =
      Except.ok (Forkd.preLoop (Forkd.init n)) := loop_empty selfPid hw
  have hrun : ∀ ins, Forkd.run selfPid (Forkd.init n) ins =
      Except.ok { Forkd.preLoop (Forkd.init n) with status := some MStatus.ended } := by
    intro ins
    unfold Forkd.run
    rw [hloop ins]
    rfl
  refine ⟨hw, ?_, hrun inputs, (hrun inputs).trans (hrun []).symm⟩
  unfold Forkd.preLoop
  rw [hsp]
  rfl

/-- Witness for C10_nonpositive_count at count -3 and a nonempty input
stream. -/
theorem C10_nonpositive_count_witness :
    (Forkd.preLoop (Forkd.init (-3))).workers = [] ∧
    (Forkd.preLoop (Forkd.init (-3))).events = [] ∧
    Forkd.run 0 (Forkd.init (-3)) [LoopInput.line "T" 0 []] =
      Except.ok { Forkd.preLoop (Forkd.init (-3)) with status := some MStatus.ended } ∧
    Forkd.run 0 (Forkd.init (-3)) [LoopInput.line "T" 0 []] =
      Forkd.run 0 (Forkd.init (-3)) [] :=
  C10_nonpositive_count (-3) (by norm_num) 0 [LoopInput.line "T" 0 []]

theorem setShutdown_keys (pid : Nat) (l : List (Nat × WStatus)) :
    (setShutdown pid l).map Prod.fst = l.map Prod.fst := by
  induction l with
  | nil => rfl
  | cons hd tl ih =>
    obtain ⟨a, c⟩ := hd
    by_cases h : a = pid
    · subst h
      simp [setShutdown, ih]
    · simp [setShutdown, h, ih]

theorem alookup_setShutdown_self (pid : Nat) (l : List (Nat × WStatus)) :
    alookup pid (setShutdown pid l) = (alookup pid l).map (fun _ => WStatus.shutdown) := by
  induction l with
  | nil => rfl
  | cons hd tl ih =>
    obtain ⟨a, c⟩ := hd
    by_cases h : a = pid
    · subst h
      simp [setShutdown, alookup]
    · simp [setShutdown, alookup, h, ih]

theorem alookup_setShutdown_ne {q pid : Nat} (l : List (Nat × WStatus)) (h : q ≠ pid) :
    alookup q (setShutdown pid l) = alookup q l := by
  induction l with
  | nil => rfl
  | cons hd tl ih =>
    obtain ⟨a, c⟩ := hd
    by_cases ha : a = pid
    · subst ha
      have haq : a ≠ q := fun he => h he.symm
      simp [setShutdown, alookup, haq, ih]
    · by_cases hq : a = q
      · simp [setShutdown, alookup, ha, hq, h]
      · simp [setShutdown, alookup, ha, hq, ih]

theorem shutdownWorkerD_fields (s : Forkd) (pid : Nat) :
    (s.shutdownWorkerD pid).status = s.status ∧
    (s.shutdownWorkerD pid).num_workers = s.num_workers ∧
    (s.shutdownWorkerD pid).nextPid = s.nextPid ∧
    (s.shutdownWorkerD pid).workers.map Prod.fst = s.workers.map Prod.fst := by
  unfold Forkd.shutdownWorkerD
  cases hsw : Forkd._shutdown_worker s pid with
  | error e => exact ⟨rfl, rfl, rfl, rfl⟩
  | ok t =>
    unfold Forkd._shutdown_worker at hsw
    split at hsw
    · exact absurd hsw (by simp)
    · split at hsw
      · injection hsw with hsw
        subst hsw
        exact ⟨rfl, rfl, rfl, setShutdown_keys pid s.workers⟩
      · injection hsw with hsw
        subst hsw
        exact ⟨rfl, rfl, rfl, rfl⟩

theorem foldl_field {α γ : Type} (g : Forkd → γ) (f : Forkd → α → Forkd)
    (hf : ∀ s a, g (f s a) = g s) :
    ∀ (l : List α) (s : Forkd), g (l.foldl f s) = g s := by
  intro l
  induction l with
  | nil => intro s; rfl
  | cons a tl ih =>
    intro s
    rw [List.foldl_cons, ih, hf]

theorem _shutdown_workers_fields (s : Forkd) :
    (Forkd._shutdown_workers s).status = s.status ∧
    (Forkd._shutdown_workers s).num_workers = s.num_workers ∧
    (Forkd._shutdown_workers s).nextPid = s.nextPid := by
  refine ⟨?_, ?_, ?_⟩
  · exact foldl_field Forkd.status Forkd.shutdownWorkerD
      (fun s a => (shutdownWorkerD_fields s a).1) _ s
  · exact foldl_field Forkd.num_workers Forkd.shutdownWorkerD
      (fun s a => (shutdownWorkerD_fields s a).2.1) _ s
  · exact foldl_field Forkd.nextPid Forkd.shutdownWorkerD
      (fun s a => (shutdownWorkerD_fields s a).2.2.1) _ s

/-- C1 (amended): beginning shutdown does force the target worker count to 0
and mark the supervisor shutdown; but `add_worker()` is not guarded by the
status: even during shutdown it still increments the target and calls the
spawner, so it is not a no-op. A single call whose incremented target is
still covered by the current registry size spawns nothing and leaves the
registry unchanged; repeated calls can raise the target above the registry
size and then do spawn new workers during shutdown (see the
counterexample). -/
theorem C1_shutdown_vs_add_worker :
    (∀ s : Forkd, s.status ≠ some MStatus.shutdown →
       (Forkd._shutdown s).status = some MStatus.shutdown ∧
       (Forkd._shutdown s).num_workers = 0) ∧
    (∀ s : Forkd, s.num_workers + 1 ≤ (s.workers.length : Int) →
       (Forkd._add_worker s).workers = s.workers ∧
       (Forkd._add_worker s).num_workers = s.num_workers + 1) := by
  constructor
  · intro s h
    unfold Forkd._shutdown
    rw [if_neg h]
    constructor
    · rw [(_shutdown_workers_fields _).1]
    · rw [(_shutdown_workers_fields _).2.1]
  · intro s h
    unfold Forkd._add_worker
    rw [spawn_workers_of_le (by exact h)]
    exact ⟨rfl, rfl⟩

/-- Witness for C1_shutdown_vs_add_worker: shutdown from a concrete running
state forces the target to 0, and one add-worker call there leaves the
registry unchanged. -/
theorem C1_shutdown_vs_add_worker_witness :
    (Forkd._shutdown (Forkd.preLoop (Forkd.init 1))).num_workers = 0 ∧
    (Forkd._add_worker (Forkd._shutdown (Forkd.preLoop (Forkd.init 1)))).workers =
      (Forkd._shutdown (Forkd.preLoop (Forkd.init 1))).workers :=
  ⟨(C1_shutdown_vs_add_worker.1 _ (by decide)).2,
   (C1_shutdown_vs_add_worker.2 _ (by decide)).1⟩

/-- C1 claims `add_worker()` during shutdown is a no-op and that nothing
spawns after shutdown begins; on the code, after shutdown of a one-worker
supervisor, one add-worker call changes the target from 0 to 1 (not a
no-op), and a second call spawns a fresh worker (pid 2) while the status is
still shutdown. -/
theorem C1_counterexample :
    (Forkd._shutdown (Forkd.preLoop (Forkd.init 1))).status = some MStatus.shutdown ∧
    (Forkd._shutdown (Forkd.preLoop (Forkd.init 1))).num_workers = 0 ∧
    (Forkd._add_worker (Forkd._shutdown (Forkd.preLoop (Forkd.init 1)))).num_workers = 1 ∧
    (Forkd._add_worker (Forkd._add_worker
        (Forkd._shutdown (Forkd.preLoop (Forkd.init 1))))).status = some MStatus.shutdown ∧
    (Forkd._add_worker (Forkd._add_worker
        (Forkd._shutdown (Forkd.preLoop (Forkd.init 1))))).workers.length = 2 ∧
    Event.forked 2 ∈ (Forkd._add_worker (Forkd._add_worker
        (Forkd._shutdown (Forkd.preLoop (Forkd.init 1))))).events := by
  decide

theorem shutdownWorkerD_of_running (s : Forkd) (pid : Nat)
    (h : alookup pid s.workers = some WStatus.running) :
    s.shutdownWorkerD pid =
      { s with workers := setShutdown pid s.workers,
               events := s.events ++ [Event.controlWrite pid] } := by
  unfold Forkd.shutdownWorkerD Forkd._shutdown_worker
  simp only [h]
  rfl

/-- C3 (amended): `remove_worker()` with target at most 1 is a no-op; with
target above 1 it decrements the target by exactly 1 and then marks the first
running worker in traversal order, writing the control byte to that worker
only — provided at least one running worker exists; if every registered
worker is already marked shutdown, no worker is marked and no byte is
written. -/
theorem C3_remove_worker :
    (∀ s : Forkd, s.num_workers ≤ 1 → Forkd._remove_worker s = s) ∧
    (∀ s : Forkd, (s.workers.map Prod.fst).Nodup → 1 < s.num_workers →
       (Forkd._remove_worker s).num_workers = s.num_workers - 1 ∧
       ((∀ q ∈ s.workers, q.2 ≠ WStatus.running) →
          (Forkd._remove_worker s).workers = s.workers ∧
          (Forkd._remove_worker s).events = s.events) ∧
       (∀ q, s.workers.find? (fun r => r.2 == WStatus.running) = some q →
          q ∈ s.workers ∧ q.2 = WStatus.running ∧
          (Forkd._remove_worker s).workers = setShutdown q.1 s.workers ∧
          (Forkd._remove_worker s).events = s.events ++ [Event.controlWrite q.1])) := by
  constructor
  · intro s h
    unfold Forkd._remove_worker
    rw [if_pos h]
  · intro s nd h
    have hle : ¬ s.num_workers ≤ 1 := by omega
    refine ⟨?_, ?_, ?_⟩
    · simp only [Forkd._remove_worker, if_neg hle]
      split
      · exact (shutdownWorkerD_fields _ _).2.1
      · rfl
    · intro hnone
      have hf : s.workers.find? (fun r => r.2 == WStatus.running) = none := by
        rw [List.find?_eq_none]
        intro x hx
        simpa using hnone x hx
      simp [Forkd._remove_worker, hle, hf]
    · intro q hf
      have hmem : q ∈ s.workers := List.mem_of_find?_eq_some hf
      have hrun : q.2 = WStatus.running := by
        have h2 := List.find?_some hf
        simpa using h2
      have hlk : alookup q.1 s.workers = some WStatus.running := by
        rw [alookup_of_mem nd hmem, hrun]
      refine ⟨hmem, hrun, ?_, ?_⟩
      · simp only [Forkd._remove_worker, if_neg hle, hf]
        rw [shutdownWorkerD_of_running { s with num_workers := s.num_workers - 1 } q.1 hlk]
      · simp only [Forkd._remove_worker, if_neg hle, hf]
        rw [shutdownWorkerD_of_running { s with num_workers := s.num_workers - 1 } q.1 hlk]

/-- Witness for C3_remove_worker: at target 1 nothing happens; from a
two-running-worker state the target drops to 1 and exactly worker 1 receives
the control byte. -/
theorem C3_remove_worker_witness :
    Forkd._remove_worker (Forkd.preLoop (Forkd.init 1)) = Forkd.preLoop (Forkd.init 1) ∧
    (Forkd._remove_worker (Forkd.preLoop (Forkd.init 2))).events =
      (Forkd.preLoop (Forkd.init 2)).events ++ [Event.controlWrite 1] :=
  ⟨C3_remove_worker.1 _ (by decide),
   ((C3_remove_worker.2 _ (by decide) (by decide)).2.2 (1, WStatus.running)
      (by decide)).2.2.2⟩

/-- C3 claims that whenever the target exceeds 1, `remove_worker()` marks
exactly one currently-running worker; on the code, in a reachable state with
target 2 and both workers already marked shutdown (each shut down by a HUP
relayed from the worker itself), `remove_worker()` decrements the target but
marks no worker and writes nothing. -/
theorem C3_counterexample :
    1 < noRunningState.num_workers ∧
    (Forkd._remove_worker noRunningState).num_workers = noRunningState.num_workers - 1 ∧
    (Forkd._remove_worker noRunningState).workers = noRunningState.workers ∧
    (Forkd._remove_worker noRunningState).events = noRunningState.events := by
  decide

theorem loop_cons_ioErr (selfPid : Nat) (s : Forkd) (e : Nat) (rest : List LoopInput)
    (hw : s.workers.isEmpty = false) :
    Forkd._loop selfPid s (LoopInput.ioErr e :: rest) =
      if e = EINTR then Forkd._loop selfPid s rest
      else Except.error (LoopErr.ioFatal e) := by
  simp [Forkd._loop, hw]

theorem loop_cons_line (selfPid : Nat) (s : Forkd) (sid : String) (from_pid : Nat)
    (reaps : List (Nat × Nat)) (rest : List LoopInput) (name : String)
    (hw : s.workers.isEmpty = false)
    (hname : alookup sid SIGNAL_IDS_REV = some name)
    (herr : Forkd.dispatch selfPid s name from_pid reaps = Except.error ()) :
    Forkd._loop selfPid s (LoopInput.line sid from_pid reaps :: rest) =
      Except.error LoopErr.unexpected := by
  simp [Forkd._loop, hw, hname, herr]

theorem isEmpty_false_of_ne_nil {l : List (Nat × WStatus)} (h : l ≠ []) :
    l.isEmpty = false := by
  cases hx : l with
  | nil => exact absurd hx h
  | cons a tl => rfl

/-- C6: in the control loop, an IOError of the interrupted-system-call class
(errno EINTR) raised inside the loop body is swallowed and the loop retries;
any other IOError on the signal channel is re-raised as fatal; and any
exception raised during dispatch (modelled as a dispatch returning an error)
is logged as unexpected and re-raised, terminating the supervisor. -/
theorem C6_loop_error_handling (selfPid : Nat) (s : Forkd) (rest : List LoopInput)
    (hw : s.workers ≠ []) :
    Forkd._loop selfPid s (LoopInput.ioErr EINTR :: rest) =
      Forkd._loop selfPid s rest ∧
    (∀ e, e ≠ EINTR →
      Forkd._loop selfPid s (LoopInput.ioErr e :: rest) =
        Except.error (LoopErr.ioFatal e)) ∧
    (∀ sid name from_pid reaps,
      alookup sid SIGNAL_IDS_REV = some name →
      Forkd.dispatch selfPid s name from_pid reaps = Except.error () →
      Forkd._loop selfPid s (LoopInput.line sid from_pid reaps :: rest) =
        Except.error LoopErr.unexpected) := by
  have hw' : s.workers.isEmpty = false := isEmpty_false_of_ne_nil hw
  refine ⟨?_, ?_, ?_⟩
  · rw [loop_cons_ioErr selfPid s EINTR rest hw', if_pos rfl]
  · intro e he
    rw [loop_cons_ioErr selfPid s e rest hw', if_neg he]
  · intro sid name from_pid reaps hname herr
    exact loop_cons_line selfPid s sid from_pid reaps rest name hw' hname herr

/-- Witness for C6_loop_error_handling: concrete loop runs on a one-worker
supervisor showing the EINTR retry, a fatal IOError with errno 5, and a
dispatch exception (SIGTERM from unknown pid 7). -/
theorem C6_loop_error_handling_witness :
    Forkd._loop 0 (Forkd.preLoop (Forkd.init 1)) [LoopInput.ioErr EINTR] =
      Forkd._loop 0 (Forkd.preLoop (Forkd.init 1)) [] ∧
    Forkd._loop 0 (Forkd.preLoop (Forkd.init 1)) [LoopInput.ioErr 5] =
      Except.error (LoopErr.ioFatal 5) ∧
    Forkd._loop 0 (Forkd.preLoop (Forkd.init 1)) [LoopInput.line "T" 7 []] =
      Except.error LoopErr.unexpected :=
  ⟨(C6_loop_error_handling 0 (Forkd.preLoop (Forkd.init 1)) [] (by decide)).1,
   (C6_loop_error_handling 0 (Forkd.preLoop (Forkd.init 1)) [] (by decide)).2.1 5
     (by decide),
   (C6_loop_error_handling 0 (Forkd.preLoop (Forkd.init 1)) [] (by decide)).2.2
     "T" "SIGTERM" 7 [] rfl rfl⟩

/-- C9: a hangup, interrupt, quit or terminate message whose origin pid is
neither the master's own pid nor a registry key makes `shutdown_worker`
perform an unguarded registry lookup that fails (KeyError), which the control
loop logs as unexpected and re-raises, crashing the supervisor. -/
theorem C9_foreign_pid_crashes (selfPid : Nat) (s : Forkd) (from_pid : Nat)
    (reaps : List (Nat × Nat)) (rest : List LoopInput) (sid : String)
    (hsid : sid = "H" ∨ sid = "I" ∨ sid = "Q" ∨ sid = "T")
    (hself : from_pid ≠ selfPid)
    (hreg : alookup from_pid s.workers = none)
    (hw : s.workers ≠ []) :
    Forkd._shutdown_worker s from_pid = Except.error () ∧
    Forkd._loop selfPid s (LoopInput.line sid from_pid reaps :: rest) =
      Except.error LoopErr.unexpected := by
  have hw' : s.workers.isEmpty = false := isEmpty_false_of_ne_nil hw
  have hsw : Forkd._shutdown_worker s from_pid = Except.error () := by
    unfold Forkd._shutdown_worker
    rw [hreg]
  refine ⟨hsw, ?_⟩
  rcases hsid with rfl | rfl | rfl | rfl
  · refine loop_cons_line selfPid s "H" from_pid reaps rest "SIGHUP" hw' rfl ?_
    show Forkd._SIGHUP selfPid s from_pid = Except.error ()
    unfold Forkd._SIGHUP
    rw [if_neg hself]
    exact hsw
  · refine loop_cons_line selfPid s "I" from_pid reaps rest "SIGINT" hw' rfl ?_
    show Forkd._SIGINT selfPid s from_pid = Except.error ()
    unfold Forkd._SIGINT
    rw [if_neg hself]
    exact hsw
  · refine loop_cons_line selfPid s "Q" from_pid reaps rest "SIGQUIT" hw' rfl ?_
    show Forkd._SIGQUIT selfPid s from_pid = Except.error ()
    unfold Forkd._SIGQUIT
    rw [if_neg hself]
    exact hsw
  · refine loop_cons_line selfPid s "T" from_pid reaps rest "SIGTERM" hw' rfl ?_
    show Forkd._SIGTERM selfPid s from_pid = Except.error ()
    unfold Forkd._SIGTERM
    rw [if_neg hself]
    exact hsw

/-- Witness for C9_foreign_pid_crashes: a quit message from pid 7, which is
neither the master pid 0 nor the single registry key 1, crashes the loop. -/
theorem C9_foreign_pid_crashes_witness :
    Forkd._shutdown_worker (Forkd.preLoop (Forkd.init 1)) 7 = Except.error () ∧
    Forkd._loop 0 (Forkd.preLoop (Forkd.init 1)) [LoopInput.line "Q" 7 []] =
      Except.error LoopErr.unexpected :=
  C9_foreign_pid_crashes 0 (Forkd.preLoop (Forkd.init 1)) 7 [] [] "Q"
    (Or.inr (Or.inr (Or.inl rfl))) (by decide) rfl (by decide)

theorem digitChar_ne_newline (n : Nat) : Nat.digitChar n ≠ '\n' := by
  rcases Nat.lt_or_ge n 16 with h | h
  · interval_cases n <;> decide
  · have hne : ∀ k : Nat, k < 16 → ¬ n = k := fun k hk he => by omega
    unfold Nat.digitChar
    rw [if_neg (hne 0 (by decide)), if_neg (hne 1 (by decide)),
        if_neg (hne 2 (by decide)), if_neg (hne 3 (by decide)),
        if_neg (hne 4 (by decide)), if_neg (hne 5 (by decide)),
        if_neg (hne 6 (by decide)), if_neg (hne 7 (by decide)),
        if_neg (hne 8 (by decide)), if_neg (hne 9 (by decide)),
        if_neg (hne 10 (by decide)), if_neg (hne 11 (by decide)),
        if_neg (hne 12 (by decide)), if_neg (hne 13 (by decide)),
        if_neg (hne 14 (by decide)), if_neg (hne 15 (by decide))]
    decide

theorem toDigitsCore_ne_newline :
    ∀ (fuel n : Nat) (acc : List Char), (∀ c ∈ acc, c ≠ '\n') →
      ∀ c ∈ Nat.toDigitsCore 10 fuel n acc, c ≠ '\n' := by
  intro fuel
  induction fuel with
  | zero => intro n acc h c hc; exact h c hc
  | succ k ih =>
    intro n acc h c hc
    rw [Nat.toDigitsCore] at hc
    split at hc
    · rcases List.mem_cons.mp hc with rfl | hmem
      · exact digitChar_ne_newline _
      · exact h c hmem
    · refine ih _ _ ?_ c hc
      intro d hd
      rcases List.mem_cons.mp hd with rfl | hmem
      · exact digitChar_ne_newline _
      · exact h d hmem

/-- The decimal representation of a pid contains no newline. -/
theorem repr_ne_newline (n : Nat) : ∀ c ∈ (Nat.repr n).data, c ≠ '\n' := by
  intro c hc
  have h2 : c ∈ Nat.toDigitsCore 10 (n + 1) n [] := hc
  exact toDigitsCore_ne_newline (n + 1) n [] (by simp) c h2

/-- C8: every installed relay handler, invoked in a process with pid p, makes
exactly one write to the signal channel, of the single line
"<kind-id> <decimal p>\n" (one newline, at the very end), where the kind id is
the fixed single-character identifier assigned to that signal by SIGNAL_IDS,
and leaves the supervisor state untouched. -/
theorem C8_relay_handler (name sid : String) (hmem : (name, sid) ∈ SIGNAL_IDS)
    (pid : Nat) (s : Forkd) (chan : List String) :
    signalHandler sid pid s chan = (s, chan ++ [signalLine sid pid]) ∧
    sid.length = 1 ∧
    (signalLine sid pid).data =
      ((sid.data ++ [' ']) ++ (Nat.repr pid).data) ++ ['\n'] ∧
    (signalLine sid pid).data.count '\n' = 1 ∧
    (signalLine sid pid).data.getLast? = some '\n' := by
  have hdata : (signalLine sid pid).data =
      ((sid.data ++ [' ']) ++ (Nat.repr pid).data) ++ ['\n'] := rfl
  have hrepr : (Nat.repr pid).data.count '\n' = 0 :=
    List.count_eq_zero.mpr (fun hmem2 => repr_ne_newline pid _ hmem2 rfl)
  have hsid : sid.length = 1 ∧ sid.data.count '\n' = 0 := by
    fin_cases hmem <;> exact ⟨by decide, by decide⟩
  refine ⟨rfl, hsid.1, hdata, ?_, ?_⟩
  · rw [hdata, List.count_append, List.count_append, List.count_append, hrepr, hsid.2]
    decide
  · rw [hdata, List.getLast?_concat]

/-- Witness for C8_relay_handler: the SIGCHLD handler running in pid 42. -/
theorem C8_relay_handler_witness :
    signalHandler "C" 42 (Forkd.init 1) [] = (Forkd.init 1, [signalLine "C" 42]) ∧
    ("C" : String).length = 1 ∧
    (signalLine "C" 42).data.count '\n' = 1 :=
  ⟨(C8_relay_handler "SIGCHLD" "C" (by decide) 42 (Forkd.init 1) []).1,
   (C8_relay_handler "SIGCHLD" "C" (by decide) 42 (Forkd.init 1) []).2.1,
   (C8_relay_handler "SIGCHLD" "C" (by decide) 42 (Forkd.init 1) []).2.2.2.1⟩

theorem alookup_exists_of_mem_keys {α β : Type} [DecidableEq α] {k : α}
    {l : List (α × β)} (h : k ∈ l.map Prod.fst) : ∃ b, alookup k l = some b := by
  induction l with
  | nil => simp at h
  | cons hd tl ih =>
    obtain ⟨a, c⟩ := hd
    by_cases hk : a = k
    · exact ⟨c, by rw [alookup, if_pos hk]⟩
    · simp only [List.map_cons, List.mem_cons] at h
      rcases h with rfl | h2
      · exact absurd rfl hk
      · obtain ⟨b, hb⟩ := ih h2
        exact ⟨b, by rw [alookup, if_neg hk, hb]⟩

theorem apop_of_mem_keys {α β : Type} [DecidableEq α] {k : α} {l : List (α × β)}
    (h : k ∈ l.map Prod.fst) : ∃ b l2, apop k l = some (b, l2) := by
  induction l with
  | nil => simp at h
  | cons hd tl ih =>
    obtain ⟨a, c⟩ := hd
    by_cases hk : a = k
    · exact ⟨c, tl, by rw [apop, if_pos hk]⟩
    · simp only [List.map_cons, List.mem_cons] at h
      rcases h with rfl | h2
      · exact absurd rfl hk
      · obtain ⟨b, l2, hb⟩ := ih h2
        exact ⟨b, (a, c) :: l2, by rw [apop, if_neg hk, hb]; rfl⟩

theorem apop_sublist {α β : Type} [DecidableEq α] {k : α} :
    ∀ {l l2 : List (α × β)} {b : β}, apop k l = some (b, l2) → l2.Sublist l := by
  intro l
  induction l with
  | nil => intro l2 b h; simp [apop] at h
  | cons hd tl ih =>
    intro l2 b h
    obtain ⟨a, c⟩ := hd
    rw [apop] at h
    by_cases hk : a = k
    · rw [if_pos hk] at h
      injection h with h
      injection h with hb hl
      subst hl
      exact List.sublist_cons_self _ _
    · rw [if_neg hk] at h
      cases hp : apop k tl with
      | none => rw [hp] at h; simp at h
      | some r =>
        obtain ⟨b2, l3⟩ := r
        rw [hp] at h
        simp only [Option.map] at h
        injection h with h
        injection h with hb hl
        subst hl
        exact List.Sublist.cons₂ _ (ih hp)

theorem apop_length {α β : Type} [DecidableEq α] {k : α} :
    ∀ {l l2 : List (α × β)} {b : β}, apop k l = some (b, l2) →
      l2.length + 1 = l.length := by
  intro l
  induction l with
  | nil => intro l2 b h; simp [apop] at h
  | cons hd tl ih =>
    intro l2 b h
    obtain ⟨a, c⟩ := hd
    rw [apop] at h
    by_cases hk : a = k
    · rw [if_pos hk] at h
      injection h with h
      injection h with hb hl
      subst hl
      rfl
    · rw [if_neg hk] at h
      cases hp : apop k tl with
      | none => rw [hp] at h; simp at h
      | some r =>
        obtain ⟨b2, l3⟩ := r
        rw [hp] at h
        simp only [Option.map] at h
        injection h with h
        injection h with hb hl
        subst hl
        have := ih hp
        simp only [List.length_cons]
        omega

theorem apop_lookup_ne {α β : Type} [DecidableEq α] {q k : α} (hqk : q ≠ k) :
    ∀ {l l2 : List (α × β)} {b : β}, apop k l = some (b, l2) →
      alookup q l2 = alookup q l := by
  intro l
  induction l with
  | nil => intro l2 b h; simp [apop] at h
  | cons hd tl ih =>
    intro l2 b h
    obtain ⟨a, c⟩ := hd
    rw [apop] at h
    by_cases hk : a = k
    · rw [if_pos hk] at h
      injection h with h
      injection h with hb hl
      subst hl
      have haq : a ≠ q := fun he => hqk (he ▸ hk)
      rw [alookup, if_neg haq]
    · rw [if_neg hk] at h
      cases hp : apop k tl with
      | none => rw [hp] at h; simp at h
      | some r =>
        obtain ⟨b2, l3⟩ := r
        rw [hp] at h
        simp only [Option.map] at h
        injection h with h
        injection h with hb hl
        subst hl
        by_cases hq : a = q
        · rw [alookup, if_pos hq, alookup, if_pos hq]
        · rw [alookup, if_neg hq, alookup, if_neg hq]
          exact ih hp

theorem apop_lookup_self {α β : Type} [DecidableEq α] {k : α} :
    ∀ {l l2 : List (α × β)} {b : β}, (l.map Prod.fst).Nodup →
      apop k l = some (b, l2) → alookup k l2 = none := by
  intro l
  induction l with
  | nil => intro l2 b _ h; simp [apop] at h
  | cons hd tl ih =>
    intro l2 b nd h
    obtain ⟨a, c⟩ := hd
    simp only [List.map_cons, List.nodup_cons] at nd
    rw [apop] at h
    by_cases hk : a = k
    · rw [if_pos hk] at h
      injection h with h
      injection h with hb hl
      subst hl
      subst hk
      exact alookup_eq_none nd.1
    · rw [if_neg hk] at h
      cases hp : apop k tl with
      | none => rw [hp] at h; simp at h
      | some r =>
        obtain ⟨b2, l3⟩ := r
        rw [hp] at h
        simp only [Option.map] at h
        injection h with h
        injection h with hb hl
        subst hl
        rw [alookup, if_neg hk]
        exact ih nd.2 hp

theorem spawnN_length : ∀ (k : Nat) (s : Forkd),
    (Forkd.spawnN k s).workers.length = s.workers.length + k := by
  intro k
  induction k with
  | zero => intro s; rfl
  | succ m ih =>
    intro s
    rw [Forkd.spawnN, ih]
    simp [Forkd.spawnOne]
    omega

theorem spawn_workers_length (s : Forkd) :
    (Forkd._spawn_workers s).workers.length =
      s.workers.length + (s.num_workers - (s.workers.length : Int)).toNat :=
  spawnN_length _ s

theorem reapLoop_spec :
    ∀ (reaps : List (Nat × Nat)) (s : Forkd),
      (s.workers.map Prod.fst).Nodup →
      (∀ q ∈ reaps, q.1 ≠ 0 ∧ q.1 ∈ s.workers.map Prod.fst) →
      (reaps.map Prod.fst).Nodup →
      ∃ t : Forkd, reapLoop s reaps = Except.ok t ∧
        t.workers.length + reaps.length = s.workers.length ∧
        (∀ p ∈ reaps.map Prod.fst, alookup p t.workers = none) ∧
        (∀ p, p ∉ reaps.map Prod.fst → alookup p t.workers = alookup p s.workers) ∧
        t.events = s.events ++
          reaps.flatMap (fun q => [Event.closedRead q.1, Event.closedWrite q.1]) ∧
        t.num_workers = s.num_workers ∧ t.status = s.status ∧ t.nextPid = s.nextPid ∧
        (t.workers.map Prod.fst).Nodup := by
  intro reaps
  induction reaps with
  | nil =>
    intro s nd hall ndr
    exact ⟨s, rfl, rfl, by simp, fun p hp => rfl, by simp, rfl, rfl, rfl, nd⟩
  | cons hd rest ih =>
    intro s nd hall ndr
    obtain ⟨p, st⟩ := hd
    have hp0 : p ≠ 0 := (hall (p, st) (List.mem_cons_self _ _)).1
    have hpk : p ∈ s.workers.map Prod.fst := (hall (p, st) (List.mem_cons_self _ _)).2
    have hwne : s.workers.isEmpty = false := by
      cases hx : s.workers with
      | nil => rw [hx] at hpk; simp at hpk
      | cons a tl => rfl
    obtain ⟨b, l2, hpop⟩ := apop_of_mem_keys hpk
    simp only [List.map_cons, List.nodup_cons] at ndr
    have hsub := List.Sublist.map Prod.fst (apop_sublist hpop)
    have hnd2 := List.Nodup.sublist hsub nd
    have hall2 : ∀ q ∈ rest, q.1 ≠ 0 ∧ q.1 ∈ l2.map Prod.fst := by
      intro q hq
      have h1 := hall q (List.mem_cons_of_mem _ hq)
      refine ⟨h1.1, ?_⟩
      have hqp : q.1 ≠ p := by
        intro he
        exact ndr.1 (he ▸ List.mem_map_of_mem Prod.fst hq)
      obtain ⟨bq, hbq⟩ := alookup_exists_of_mem_keys h1.2
      have hbq2 : alookup q.1 l2 = some bq := by
        rw [apop_lookup_ne hqp hpop]
        exact hbq
      exact alookup_mem_keys hbq2
    have hih := ih ⟨s.status, s.num_workers, l2, s.nextPid, s.events ++ [Event.closedRead p, Event.closedWrite p], s.signalPipe, s.handlers⟩ hnd2 hall2 ndr.2
    dsimp only at hih
    obtain ⟨t, hrl, hlen, hmemnone, hunch, hev, hnum, hstat, hnext, hndt⟩ := hih
    refine ⟨t, ?_, ?_, ?_, ?_, ?_, hnum, hstat, hnext, hndt⟩
    · simp only [reapLoop, hwne, hpop]
      simp only [Bool.false_eq_true, if_false, if_neg hp0]
      exact hrl
    · have hl2 := apop_length hpop
      simp only [List.length_cons]
      omega
    · intro q hq
      simp only [List.map_cons, List.mem_cons] at hq
      rcases hq with rfl | hq2
      · rw [hunch q ndr.1]
        exact apop_lookup_self nd hpop
      · exact hmemnone q hq2
    · intro q hq
      simp only [List.map_cons, List.mem_cons] at hq
      push_neg at hq
      rw [hunch q hq.2]
      exact apop_lookup_ne hq.1 hpop
    · rw [hev]
      simp [List.append_assoc]

/-- C7 (amended): the child-exited handler repeatedly performs a non-blocking
wait; each terminated pid (valid registry key, stopping at a 0 result) has
its record removed and both of its channel ends closed, while the rest of the
registry is untouched; afterwards it calls the spawner unconditionally — not
"unless shutting down" — which spawns back up to the target count, whatever
the status. Since shutdown normally forces the target to 0, no spawn then
occurs; with a positive target (the registry at or below target), the
registry is back at the target count after one reap cycle, so an out-of-band
worker death is replaced within one reap cycle. -/
theorem C7_sigchld_reap (s : Forkd) (reaps : List (Nat × Nat))
    (nd : (s.workers.map Prod.fst).Nodup)
    (hall : ∀ q ∈ reaps, q.1 ≠ 0 ∧ q.1 ∈ s.workers.map Prod.fst)
    (ndr : (reaps.map Prod.fst).Nodup) :
    ∃ t : Forkd, reapLoop s reaps = Except.ok t ∧
      Forkd._SIGCHLD s reaps = Except.ok (Forkd._spawn_workers t) ∧
      t.workers.length + reaps.length = s.workers.length ∧
      (∀ p ∈ reaps.map Prod.fst, alookup p t.workers = none) ∧
      (∀ p, p ∉ reaps.map Prod.fst → alookup p t.workers = alookup p s.workers) ∧
      t.events = s.events ++
        reaps.flatMap (fun q => [Event.closedRead q.1, Event.closedWrite q.1]) ∧
      t.num_workers = s.num_workers ∧
      ((t.workers.length : Int) ≤ s.num_workers →
        ((Forkd._spawn_workers t).workers.length : Int) = s.num_workers) := by
  obtain ⟨t, hrl, hlen, hnone, hunch, hev, hnum, hstat, hnext, hndt⟩ :=
    reapLoop_spec reaps s nd hall ndr
  refine ⟨t, hrl, ?_, hlen, hnone, hunch, hev, hnum, ?_⟩
  · unfold Forkd._SIGCHLD
    rw [hrl]
    rfl
  · intro hle
    have h2 := spawn_workers_length t
    rw [h2, hnum]
    omega

/-- Witness for C7_sigchld_reap: a two-worker supervisor at target 2 whose
worker 1 dies; the reap removes it and the spawner restores the pool to 2. -/
theorem C7_sigchld_reap_witness :
    ∃ t : Forkd, reapLoop (Forkd.preLoop (Forkd.init 2)) [(1, 0)] = Except.ok t ∧
      Forkd._SIGCHLD (Forkd.preLoop (Forkd.init 2)) [(1, 0)] =
        Except.ok (Forkd._spawn_workers t) ∧
      t.workers.length + [(1, 0)].length = (Forkd.preLoop (Forkd.init 2)).workers.length ∧
      (∀ p ∈ [(1, 0)].map Prod.fst, alookup p t.workers = none) ∧
      (∀ p, p ∉ [(1, 0)].map Prod.fst →
        alookup p t.workers = alookup p (Forkd.preLoop (Forkd.init 2)).workers) ∧
      t.events = (Forkd.preLoop (Forkd.init 2)).events ++
        [(1, 0)].flatMap (fun q => [Event.closedRead q.1, Event.closedWrite q.1]) ∧
      t.num_workers = (Forkd.preLoop (Forkd.init 2)).num_workers ∧
      ((t.workers.length : Int) ≤ (Forkd.preLoop (Forkd.init 2)).num_workers →
        ((Forkd._spawn_workers t).workers.length : Int) =
          (Forkd.preLoop (Forkd.init 2)).num_workers) :=
  C7_sigchld_reap (Forkd.preLoop (Forkd.init 2)) [(1, 0)] (by decide) (by decide)
    (by decide)

/-- C7 claims reaping spawns back to target "unless the supervisor is
shutting down"; on the code the spawner runs unconditionally: in the
reachable state shutdownPosTarget (status shutdown, target raised back to 1
by an add-worker request) the death of worker 1 is reaped and a brand-new
worker 2 is spawned even though the supervisor is shutting down. -/
theorem C7_counterexample :
    shutdownPosTarget.status = some MStatus.shutdown ∧
    shutdownPosTarget.num_workers = 1 ∧
    Forkd._SIGCHLD shutdownPosTarget [(1, 0)] = Except.ok
      { status := some MStatus.shutdown, num_workers := 1,
        workers := [(2, WStatus.running)], nextPid := 3,
        events := [Event.forked 1, Event.controlWrite 1, Event.closedRead 1,
                   Event.closedWrite 1, Event.forked 2],
        signalPipe := true,
        handlers := ["SIGCHLD", "SIGHUP", "SIGINT", "SIGQUIT", "SIGUSR1",
                     "SIGUSR2", "SIGTERM"] } := by
  decide

theorem writeCount_append (l1 l2 : List Event) (p : Nat) :
    writeCount (l1 ++ l2) p = writeCount l1 p + writeCount l2 p := by
  simp [writeCount]

theorem writeCount_controlWrite (q p : Nat) :
    writeCount [Event.controlWrite q] p = if q = p then 1 else 0 := by
  by_cases h : q = p
  · subst h
    simp [writeCount]
  · simp [writeCount, List.count_cons, h]

theorem writeCount_closes (q p : Nat) :
    writeCount [Event.closedRead q, Event.closedWrite q] p = 0 := by
  simp [writeCount]

theorem writeCount_forked (q p : Nat) : writeCount [Event.forked q] p = 0 := by
  simp [writeCount]

theorem alookup_append {α β : Type} [DecidableEq α] (k : α) (l1 l2 : List (α × β)) :
    alookup k (l1 ++ l2) =
      match alookup k l1 with
      | some b => some b
      | none => alookup k l2 := by
  induction l1 with
  | nil => simp [alookup]
  | cons hd tl ih =>
    obtain ⟨a, c⟩ := hd
    by_cases h : a = k
    · simp [alookup, h]
    · simp [alookup, h, ih]

theorem regInv_of_eq {s t : Forkd} (inv : RegInv s) (hw : t.workers = s.workers)
    (he : t.events = s.events) (hn : t.nextPid = s.nextPid) : RegInv t := by
  constructor
  · rw [hw]
    exact inv.nodup
  · intro q hq
    rw [hn]
    exact inv.keysLt q (by rw [← hw]; exact hq)
  · intro p
    rw [he]
    exact inv.wcLe p
  · intro p hp
    rw [he]
    exact inv.runZero p (by rw [← hw]; exact hp)
  · intro p hp
    rw [he]
    exact inv.freshZero p (by rw [← hn]; exact hp)

theorem regInv_shutdown_worker {s t : Forkd} {pid : Nat} (inv : RegInv s)
    (h : Forkd._shutdown_worker s pid = Except.ok t) : RegInv t := by
  unfold Forkd._shutdown_worker at h
  split at h
  · exact absurd h (by simp)
  · rename_i st heq
    split at h
    · rename_i hst
      subst hst
      injection h with h
      subst h
      have hpidmem : (pid, WStatus.running) ∈ s.workers := alookup_mem heq
      have hpidlt : pid < s.nextPid := inv.keysLt _ hpidmem
      refine ⟨?_, ?_, ?_, ?_, ?_⟩ <;> dsimp only
      · rw [setShutdown_keys]
        exact inv.nodup
      · intro q hq
        have h1 : q.1 ∈ (setShutdown pid s.workers).map Prod.fst :=
          List.mem_map_of_mem Prod.fst hq
        rw [setShutdown_keys] at h1
        obtain ⟨q0, hq0, he⟩ := List.mem_map.mp h1
        exact he ▸ inv.keysLt q0 hq0
      · intro p
        rw [writeCount_append, writeCount_controlWrite]
        by_cases hp : pid = p
        · subst hp
          rw [inv.runZero pid heq]
          simp
        · rw [if_neg hp]
          have := inv.wcLe p
          omega
      · intro p hp
        by_cases hpq : p = pid
        · subst hpq
          rw [alookup_setShutdown_self, heq] at hp
          simp at hp
        · rw [alookup_setShutdown_ne _ hpq] at hp
          rw [writeCount_append, writeCount_controlWrite,
              if_neg (fun he => hpq he.symm), inv.runZero p hp]
      · intro p hp
        have hne : pid ≠ p := by omega
        rw [writeCount_append, writeCount_controlWrite, if_neg hne,
            inv.freshZero p hp]
    · injection h with h
      subst h
      exact inv

theorem regInv_shutdownWorkerD (s : Forkd) (pid : Nat) (inv : RegInv s) :
    RegInv (s.shutdownWorkerD pid) := by
  unfold Forkd.shutdownWorkerD
  cases h : Forkd._shutdown_worker s pid with
  | ok t => exact regInv_shutdown_worker inv h
  | error e => exact inv

theorem regInv_foldl {α : Type} (f : Forkd → α → Forkd)
    (hf : ∀ s a, RegInv s → RegInv (f s a)) :
    ∀ (l : List α) (s : Forkd), RegInv s → RegInv (l.foldl f s) := by
  intro l
  induction l with
  | nil => intro s inv; exact inv
  | cons a tl ih =>
    intro s inv
    rw [List.foldl_cons]
    exact ih _ (hf s a inv)

theorem regInv_shutdown_workers (s : Forkd) (inv : RegInv s) :
    RegInv s._shutdown_workers :=
  regInv_foldl Forkd.shutdownWorkerD
    (fun u a inv2 => regInv_shutdownWorkerD u a inv2) _ s inv

theorem regInv_mk_status_num (s : Forkd) (x : Option MStatus) (y : Int)
    (inv : RegInv s) : RegInv { s with status := x, num_workers := y } :=
  ⟨inv.nodup, inv.keysLt, inv.wcLe, inv.runZero, inv.freshZero⟩

theorem regInv_mk_num (s : Forkd) (y : Int) (inv : RegInv s) :
    RegInv { s with num_workers := y } :=
  ⟨inv.nodup, inv.keysLt, inv.wcLe, inv.runZero, inv.freshZero⟩

theorem regInv_shutdown (s : Forkd) (inv : RegInv s) : RegInv s._shutdown := by
  unfold Forkd._shutdown
  by_cases h : s.status = some MStatus.shutdown
  · rw [if_pos h]
    exact inv
  · rw [if_neg h]
    exact regInv_shutdown_workers _ (regInv_mk_status_num s _ _ inv)

theorem regInv_spawnOne (s : Forkd) (inv : RegInv s) : RegInv s.spawnOne := by
  refine ⟨?_, ?_, ?_, ?_, ?_⟩ <;> dsimp only [Forkd.spawnOne]
  · rw [List.map_append, List.nodup_append]
    refine ⟨inv.nodup, by simp, ?_⟩
    intro a ha hb
    simp at hb
    subst hb
    obtain ⟨q, hq, he⟩ := List.mem_map.mp ha
    have h1 := inv.keysLt q hq
    rw [he] at h1
    exact absurd h1 (lt_irrefl _)
  · intro q hq
    rcases List.mem_append.mp hq with h1 | h1
    · have := inv.keysLt q h1
      omega
    · simp at h1
      rw [h1]
      omega
  · intro p
    rw [writeCount_append, writeCount_forked]
    have := inv.wcLe p
    omega
  · intro p hp
    rw [writeCount_append, writeCount_forked]
    rw [alookup_append] at hp
    cases hl : alookup p s.workers with
    | some b =>
      rw [hl] at hp
      simp only at hp
      injection hp with hp
      subst hp
      rw [inv.runZero p hl]
    | none =>
      rw [hl] at hp
      simp only at hp
      have hpn : p = s.nextPid := by
        by_cases hq : s.nextPid = p
        · exact hq.symm
        · rw [alookup, if_neg hq] at hp
          simp [alookup] at hp
      rw [inv.freshZero p (by omega)]
  · intro p hp
    rw [writeCount_append, writeCount_forked]
    rw [inv.freshZero p (by omega)]

theorem regInv_spawnN : ∀ (k : Nat) (s : Forkd), RegInv s →
    RegInv (Forkd.spawnN k s) := by
  intro k
  induction k with
  | zero => intro s inv; exact inv
  | succ m ih =>
    intro s inv
    rw [Forkd.spawnN]
    exact ih _ (regInv_spawnOne s inv)

theorem regInv_spawn_workers (s : Forkd) (inv : RegInv s) :
    RegInv s._spawn_workers :=
  regInv_spawnN _ s inv

theorem regInv_respawn_workers (s : Forkd) (inv : RegInv s) :
    RegInv s._respawn_workers := by
  unfold Forkd._respawn_workers
  refine regInv_foldl _ ?_ _ _ inv
  intro u a inv2
  by_cases hc : alookup a.1 u.workers = some WStatus.running
  · rw [if_pos hc]
    exact regInv_shutdownWorkerD u a.1 inv2
  · rw [if_neg hc]
    exact inv2

theorem regInv_add_worker (s : Forkd) (inv : RegInv s) : RegInv s._add_worker :=
  regInv_spawn_workers _ (regInv_mk_num s _ inv)

theorem regInv_remove_worker (s : Forkd) (inv : RegInv s) :
    RegInv s._remove_worker := by
  unfold Forkd._remove_worker
  by_cases h : s.num_workers ≤ 1
  · rw [if_pos h]
    exact inv
  · rw [if_neg h]
    dsimp only
    split
    · exact regInv_shutdownWorkerD _ _ (regInv_mk_num s _ inv)
    · exact regInv_mk_num s _ inv

theorem regInv_reapLoop :
    ∀ (reaps : List (Nat × Nat)) (s t : Forkd), RegInv s →
      reapLoop s reaps = Except.ok t → RegInv t := by
  intro reaps
  induction reaps with
  | nil =>
    intro s t inv h
    injection h with h
    subst h
    exact inv
  | cons hd rest ih =>
    intro s t inv h
    obtain ⟨p, st⟩ := hd
    simp only [reapLoop] at h
    split at h
    · injection h with h
      subst h
      exact inv
    · split at h
      · injection h with h
        subst h
        exact inv
      · split at h
        · exact absurd h (by simp)
        · rename_i r heq
          obtain ⟨b, l2⟩ := r
          refine ih _ t ?_ h
          have hsub := apop_sublist heq
          refine ⟨?_, ?_, ?_, ?_, ?_⟩ <;> dsimp only
          · exact List.Nodup.sublist (List.Sublist.map Prod.fst hsub) inv.nodup
          · intro q hq
            exact inv.keysLt q (hsub.subset hq)
          · intro pq
            rw [writeCount_append, writeCount_closes]
            have := inv.wcLe pq
            omega
          · intro pq hpq
            rw [writeCount_append, writeCount_closes]
            have hmem : (pq, WStatus.running) ∈ l2 := alookup_mem hpq
            have hmem2 : (pq, WStatus.running) ∈ s.workers := hsub.subset hmem
            have hlk : alookup pq s.workers = some WStatus.running :=
              alookup_of_mem inv.nodup hmem2
            rw [inv.runZero pq hlk]
          · intro pq hpq
            rw [writeCount_append, writeCount_closes]
            rw [inv.freshZero pq hpq]

theorem regInv_dispatch {selfPid : Nat} {s t : Forkd} {name : String} {fp : Nat}
    {reaps : List (Nat × Nat)} (inv : RegInv s)
    (h : Forkd.dispatch selfPid s name fp reaps = Except.ok t) : RegInv t := by
  unfold Forkd.dispatch at h
  split_ifs at h
  · unfold Forkd._SIGCHLD at h
    cases hr : reapLoop s reaps with
    | error e =>
      rw [hr] at h
      exact absurd h (by simp [Except.map])
    | ok u =>
      rw [hr] at h
      simp only [Except.map] at h
      injection h with h
      subst h
      exact regInv_spawn_workers u (regInv_reapLoop reaps s u inv hr)
  · unfold Forkd._SIGHUP at h
    split at h
    · injection h with h
      subst h
      exact regInv_respawn_workers s inv
    · exact regInv_shutdown_worker inv h
  · unfold Forkd._SIGINT at h
    split at h
    · injection h with h
      subst h
      exact regInv_shutdown s inv
    · exact regInv_shutdown_worker inv h
  · unfold Forkd._SIGQUIT at h
    split at h
    · injection h with h
      subst h
      exact regInv_shutdown s inv
    · exact regInv_shutdown_worker inv h
  · unfold Forkd._SIGTERM at h
    split at h
    · injection h with h
      subst h
      exact regInv_shutdown s inv
    · exact regInv_shutdown_worker inv h
  · unfold Forkd._SIGUSR1 at h
    split at h
    · injection h with h
      subst h
      exact regInv_add_worker s inv
    · injection h with h
      subst h
      exact inv
  · unfold Forkd._SIGUSR2 at h
    split at h
    · injection h with h
      subst h
      exact regInv_remove_worker s inv
    · injection h with h
      subst h
      exact inv

theorem regInv_applyMsgs (selfPid : Nat) :
    ∀ (msgs : List (String × Nat × List (Nat × Nat))) (s : Forkd), RegInv s →
      RegInv (Forkd.applyMsgs selfPid s msgs) := by
  intro msgs
  induction msgs with
  | nil => intro s inv; exact inv
  | cons m rest ih =>
    intro s inv
    cases hd : Forkd.dispatch selfPid s m.1 m.2.1 m.2.2 with
    | ok u =>
      simp only [Forkd.applyMsgs, hd]
      exact ih u (regInv_dispatch inv hd)
    | error e =>
      simp only [Forkd.applyMsgs, hd]
      exact inv

theorem regInv_init (n : Int) : RegInv (Forkd.init n) := by
  refine ⟨?_, ?_, ?_, ?_, ?_⟩
  · simp [Forkd.init]
  · intro q hq
    simp [Forkd.init] at hq
  · intro p
    simp [Forkd.init, writeCount]
  · intro p hp
    simp [Forkd.init, alookup] at hp
  · intro p hp
    simp [Forkd.init, writeCount]

theorem regInv_preLoop (s : Forkd) (inv : RegInv s) : RegInv s.preLoop := by
  have h1 : RegInv { s with status := some MStatus.starting } :=
    regInv_of_eq inv rfl rfl rfl
  have h2 : RegInv s.preSpawn := regInv_of_eq h1 rfl rfl rfl
  have h3 : RegInv (Forkd._spawn_workers s.preSpawn) := regInv_spawn_workers _ h2
  exact regInv_of_eq h3 rfl rfl rfl

/-- C4: supervisor shutdown is idempotent — a second `_shutdown` while the
status is already shutdown returns the state unchanged and writes nothing;
`shutdown_worker` on a record already marked shutdown changes nothing; and
along any control-loop message sequence of a supervisor started by `run()`,
each worker pid's control channel receives the quit byte at most once (pids
are never reused, so this is at most once over a record's lifetime). -/
theorem C4_shutdown_idempotent :
    (∀ s : Forkd, s.status = some MStatus.shutdown → Forkd._shutdown s = s) ∧
    (∀ (s : Forkd) (pid : Nat), alookup pid s.workers = some WStatus.shutdown →
       Forkd._shutdown_worker s pid = Except.ok s) ∧
    (∀ (selfPid : Nat) (n : Int) (msgs : List (String × Nat × List (Nat × Nat)))
       (p : Nat),
       writeCount (Forkd.applyMsgs selfPid (Forkd.preLoop (Forkd.init n)) msgs).events
         p ≤ 1) := by
  refine ⟨?_, ?_, ?_⟩
  · intro s h
    unfold Forkd._shutdown
    rw [if_pos h]
  · intro s pid h
    unfold Forkd._shutdown_worker
    rw [h]
    rfl
  · intro selfPid n msgs p
    exact (regInv_applyMsgs selfPid msgs (Forkd.preLoop (Forkd.init n))
      (regInv_preLoop (Forkd.init n) (regInv_init n))).wcLe p

/-- Witness for C4_shutdown_idempotent: shutting a one-worker supervisor down
twice equals shutting it down once; `shutdown_worker` on the already-shutdown
record 1 is a no-op; and after two self-directed SIGTERM messages worker 1
has received the quit byte at most once. -/
theorem C4_shutdown_idempotent_witness :
    Forkd._shutdown (Forkd._shutdown (Forkd.preLoop (Forkd.init 1))) =
      Forkd._shutdown (Forkd.preLoop (Forkd.init 1)) ∧
    Forkd._shutdown_worker (Forkd._shutdown (Forkd.preLoop (Forkd.init 1))) 1 =
      Except.ok (Forkd._shutdown (Forkd.preLoop (Forkd.init 1))) ∧
    writeCount (Forkd.applyMsgs 0 (Forkd.preLoop (Forkd.init 1))
        [("SIGTERM", 0, []), ("SIGTERM", 0, [])]).events 1 ≤ 1 :=
  ⟨C4_shutdown_idempotent.1 _ (by decide),
   C4_shutdown_idempotent.2.1 _ 1 (by decide),
   C4_shutdown_idempotent.2.2 0 1 [("SIGTERM", 0, []), ("SIGTERM", 0, [])] 1⟩
